import Mathlib

/-!
# Verification of the fitness-tracker dashboard (src/FTA.py)

Shallow embedding of the data-loading, filtering, ranking and
recommendation logic of the dashboard script.  Tables are lists of rows;
numeric cells that pandas represents as floats (where `NaN` marks a
missing value) are modelled as `Option ℚ`, with `none` standing for
`NaN`/"no value"; every comparison against a missing value is false,
matching IEEE-754 comparisons against `NaN` used by pandas filters.
-/

namespace FTA

/-- A raw tabular cell as it comes out of `pd.read_csv`: a number, a
string (for object-dtype columns, e.g. prices with thousands
separators or garbled text), or a missing value. -/
inductive Cell where
  | num (q : ℚ)
  | str (s : String)
  | missing
deriving DecidableEq, Repr

/-- Numeric value of a decimal digit character, `none` otherwise. -/
def digitVal (c : Char) : Option ℕ :=
  if c.isDigit then some (c.toNat - 48) else none

/-- Accumulating decimal parser over a character list; fails on the
first non-digit. -/
def parseNatAux : ℕ → List Char → Option ℕ
  | acc, [] => some acc
  | acc, c :: cs =>
    match digitVal c with
    | some d => parseNatAux (10 * acc + d) cs
    | none => none

/-- Parse a non-empty all-digit character list as a natural number. -/
def parseNatChars (cs : List Char) : Option ℕ :=
  match cs with
  | [] => none
  | _ => parseNatAux 0 cs

/-- Parse an unsigned decimal numeral, with an optional fractional
part after a single dot, as a rational. -/
def parseUnsigned (cs : List Char) : Option ℚ :=
  match cs.span (fun c => c != '.') with
  | (intPart, []) => (parseNatChars intPart).map (fun n => (n : ℚ))
  | (intPart, _dot :: fracPart) =>
    match parseNatChars intPart, parseNatChars fracPart with
    | some n, some f => some ((n : ℚ) + (f : ℚ) / (10 : ℚ) ^ fracPart.length)
    | _, _ => none

/-- Parse a decimal numeral with an optional leading minus sign, the
way `pd.to_numeric` reads a clean numeric string; anything else is
not numeric. -/
def parseRat (s : String) : Option ℚ :=
  match s.data with
  | [] => none
  | '-' :: rest => (parseUnsigned rest).map (fun q => -q)
  | cs => parseUnsigned cs

/-- `.replace(\x7b',': ''\x7d, regex=True)` on a string cell: drop every
comma (thousands separators). -/
def stripCommas (s : String) : String :=
  ⟨s.data.filter (fun c => c != ',')⟩

/-- `pd.to_numeric(col.replace(\x7b',': ''\x7d, regex=True), errors='coerce')`
on one cell: numbers pass through, strings are de-comma-ed and parsed,
and anything non-numeric is coerced to the missing marker (`NaN`),
never raised on. -/
def cleanCell (c : Cell) : Cell :=
  match c with
  | .num q => .num q
  | .missing => .missing
  | .str s =>
    match parseRat (stripCommas s) with
    | some q => .num q
    | none => .missing

/-- `pd.to_numeric(df[Reviews], errors='coerce')` on one cell: same
coercion but with no comma replacement. -/
def cleanReviewsCell (c : Cell) : Cell :=
  match c with
  | .num q => .num q
  | .missing => .missing
  | .str s =>
    match parseRat s with
    | some q => .num q
    | none => .missing

/-- View a cell as an optional rational (`NaN`-as-`none`). -/
def Cell.toOpt : Cell → Option ℚ
  | .num q => some q
  | .str _ => none
  | .missing => none

/-- The four labels of the `pd.cut` price binning. -/
inductive PriceCategory where
  | budget
  | midRange
  | premium
  | luxury
deriving DecidableEq, Repr

/-- `pd.cut(price, bins=[0, 2000, 5000, 10000, inf],
labels=['Budget', 'Mid-Range', 'Premium', 'Luxury'])` on one value:
the bins are left-open right-closed `(0,2000]`, `(2000,5000]`,
`(5000,10000]`, `(10000,∞)`; a value outside every bin (`≤ 0`) or a
missing value gets no category. -/
def priceCategoryOf : Option ℚ → Option PriceCategory
  | none => none
  | some p =>
    if 0 < p ∧ p ≤ 2000 then some .budget
    else if 2000 < p ∧ p ≤ 5000 then some .midRange
    else if 5000 < p ∧ p ≤ 10000 then some .premium
    else if 10000 < p then some .luxury
    else none

/-- One product record as read from the CSV, before cleaning.  Columns
the script never cleans (`Rating (Out of 5)`,
`Average Battery Life (in days)`) are taken as already-numeric
optional values. -/
structure RawRow where
  brand : String
  model : String
  deviceType : String
  color : String
  display : String
  strapMaterial : String
  sellingPrice : Cell
  originalPrice : Cell
  reviews : Cell
  rating : Option ℚ
  battery : Option ℚ
deriving DecidableEq, Repr

/-- One product record after `load_data`: cleaned numeric columns plus
the derived columns `Discount (%)`, `Value Score`, `Price Category`. -/
structure Row where
  brand : String
  model : String
  deviceType : String
  color : String
  display : String
  strapMaterial : String
  sellingPrice : Option ℚ
  originalPrice : Option ℚ
  reviews : ℚ
  rating : Option ℚ
  battery : Option ℚ
  discount : Option ℚ
  valueScore : Option ℚ
  priceCategory : Option PriceCategory
deriving DecidableEq, Repr

/-- The per-row content of `load_data`: clean `Selling Price` and
`Original Price` with comma stripping and coercion, coerce `Reviews`
and fill its missing values with 0, then append the derived columns
`Discount (%) = 100 * (Original - Selling) / Original`,
`Value Score = Rating * Reviews / Selling`, and the `pd.cut` price
category.  A derived value is missing exactly when one of its float
inputs is `NaN`. -/
def loadRow (raw : RawRow) : Row :=
  let sell := (cleanCell raw.sellingPrice).toOpt
  let orig := (cleanCell raw.originalPrice).toOpt
  let reviews := ((cleanReviewsCell raw.reviews).toOpt).getD 0
  { brand := raw.brand
    model := raw.model
    deviceType := raw.deviceType
    color := raw.color
    display := raw.display
    strapMaterial := raw.strapMaterial
    sellingPrice := sell
    originalPrice := orig
    reviews := reviews
    rating := raw.rating
    battery := raw.battery
    discount :=
      match orig, sell with
      | some o, some s => some (100 * (o - s) / o)
      | _, _ => none
    valueScore :=
      match raw.rating, sell with
      | some r, some s => some (r * reviews / s)
      | _, _ => none
    priceCategory := priceCategoryOf sell }

/-- The sidebar filter control values: three multi-selects, the price
range slider, the minimum-rating slider. -/
structure Filters where
  brands : List String
  devices : List String
  colors : List String
  priceLo : ℚ
  priceHi : ℚ
  minRating : ℚ
deriving DecidableEq, Repr

/-- `price_range[0] <= Selling Price <= price_range[1]`; false on a
missing price, as the float comparison with `NaN` is. -/
def priceOk (lo hi : ℚ) (r : Row) : Bool :=
  match r.sellingPrice with
  | some p => decide (lo ≤ p) && decide (p ≤ hi)
  | none => false

/-- `Rating (Out of 5) >= rating_filter`; false on a missing rating,
as the float comparison with `NaN` is. -/
def ratingOk (m : ℚ) (r : Row) : Bool :=
  match r.rating with
  | some q => decide (m ≤ q)
  | none => false

/-- One `if selection: df = df[df[col].isin(selection)]` stage: an
empty multi-select is skipped entirely. -/
def memFilter (sel : List String) (get : Row → String) (rows : List Row) : List Row :=
  if sel.isEmpty then rows else rows.filter (fun r => sel.contains (get r))

/-- The sidebar filter pipeline (src/FTA.py lines 117-129): brand,
device-type and color multi-select stages, then the price-range and
minimum-rating mask. -/
def applyFilters (fs : Filters) (rows : List Row) : List Row :=
  let r1 := memFilter fs.brands Row.brand rows
  let r2 := memFilter fs.devices Row.deviceType r1
  let r3 := memFilter fs.colors Row.color r2
  r3.filter (fun r => priceOk fs.priceLo fs.priceHi r && ratingOk fs.minRating r)

/-- The filter pipeline with the brand stage absent altogether
(spec §4.2: the reference point for "empty selection = no
constraint"). -/
def applyFiltersNoBrand (fs : Filters) (rows : List Row) : List Row :=
  let r2 := memFilter fs.devices Row.deviceType rows
  let r3 := memFilter fs.colors Row.color r2
  r3.filter (fun r => priceOk fs.priceLo fs.priceHi r && ratingOk fs.minRating r)

/-- The filter pipeline with the device-type stage absent. -/
def applyFiltersNoDevice (fs : Filters) (rows : List Row) : List Row :=
  let r1 := memFilter fs.brands Row.brand rows
  let r3 := memFilter fs.colors Row.color r1
  r3.filter (fun r => priceOk fs.priceLo fs.priceHi r && ratingOk fs.minRating r)

/-- The filter pipeline with the color stage absent. -/
def applyFiltersNoColor (fs : Filters) (rows : List Row) : List Row :=
  let r1 := memFilter fs.brands Row.brand rows
  let r2 := memFilter fs.devices Row.deviceType r1
  r2.filter (fun r => priceOk fs.priceLo fs.priceHi r && ratingOk fs.minRating r)

/-- The conjunction of every filter-pipeline constraint on one row. -/
def passAll (fs : Filters) (r : Row) : Bool :=
  (fs.brands.isEmpty || fs.brands.contains r.brand) &&
  ((fs.devices.isEmpty || fs.devices.contains r.deviceType) &&
  ((fs.colors.isEmpty || fs.colors.contains r.color) &&
  (priceOk fs.priceLo fs.priceHi r && ratingOk fs.minRating r)))

/-- Comparison of optional keys with a missing value as the least
element: under a descending sort this sends `NaN` keys to the end,
which is where `sort_values(ascending=False)` (the documented
equivalent of `nlargest`, `na_position='last'`) puts them. -/
def optLeb : Option ℚ → Option ℚ → Bool
  | none, _ => true
  | some _, none => false
  | some x, some y => decide (x ≤ y)

/-- `a` may come before `b` in a descending arrangement by `key`. -/
def descRel (key : Row → Option ℚ) : Row → Row → Prop :=
  fun a b => optLeb (key b) (key a) = true

instance (key : Row → Option ℚ) : DecidableRel (descRel key) :=
  fun a b => instDecidableEqBool (optLeb (key b) (key a)) true

theorem optLeb_total (a b : Option ℚ) : optLeb a b = true ∨ optLeb b a = true := by
  cases a with
  | none => exact Or.inl rfl
  | some x =>
    cases b with
    | none => exact Or.inr rfl
    | some y =>
      rcases le_total x y with h | h
      · exact Or.inl (by simpa [optLeb] using h)
      · exact Or.inr (by simpa [optLeb] using h)

theorem optLeb_trans {a b c : Option ℚ} (hab : optLeb a b = true)
    (hbc : optLeb b c = true) : optLeb a c = true := by
  cases a with
  | none => rfl
  | some x =>
    cases b with
    | none => simp [optLeb] at hab
    | some y =>
      cases c with
      | none => simp [optLeb] at hbc
      | some z =>
        simp only [optLeb, decide_eq_true_eq] at hab hbc ⊢
        exact le_trans hab hbc

instance (key : Row → Option ℚ) : IsTotal Row (descRel key) :=
  ⟨fun a b => optLeb_total (key b) (key a)⟩

instance (key : Row → Option ℚ) : IsTrans Row (descRel key) :=
  ⟨fun _ _ _ hab hbc => optLeb_trans hbc hab⟩

/-- `df.nlargest(n, col)`, modelled by its documented equivalence
`df.sort_values(col, ascending=False).head(n)`: arrange the rows in
descending order of the key (missing keys last) and keep the first
`n`. -/
def nlargestBy (n : ℕ) (key : Row → Option ℚ) (rows : List Row) : List Row :=
  (rows.insertionSort (descRel key)).take n

theorem nlargestBy_sorted (n : ℕ) (key : Row → Option ℚ) (rows : List Row) :
    (nlargestBy n key rows).Sorted (descRel key) :=
  (List.sorted_insertionSort (descRel key) rows).sublist
    (List.take_sublist n _)

theorem nlargestBy_length (n : ℕ) (key : Row → Option ℚ) (rows : List Row) :
    (nlargestBy n key rows).length = min n rows.length := by
  unfold nlargestBy
  rw [List.length_take, List.length_insertionSort]

theorem mem_nlargestBy {n : ℕ} {key : Row → Option ℚ} {rows : List Row}
    {r : Row} (h : r ∈ nlargestBy n key rows) : r ∈ rows := by
  refine (List.mem_insertionSort (descRel key)).mp ?_
  exact (List.take_sublist n _).mem h

/-- The four budget brackets of the recommendation engine. -/
inductive Budget where
  | budget
  | midRange
  | premium
  | luxury
deriving DecidableEq, Repr

/-- The four priority choices of the recommendation engine. -/
inductive Priority where
  | bestValue
  | highestQuality
  | mostPopular
  | longestBattery
deriving DecidableEq, Repr

/-- `Average Battery Life (in days) >= min_battery`; false on a
missing value. -/
def batteryOk (m : ℚ) (r : Row) : Bool :=
  match r.battery with
  | some b => decide (m ≤ b)
  | none => false

/-- The budget-bracket mask of the recommendation engine
(src/FTA.py lines 508-515); false on a missing selling price. -/
def budgetPass (b : Budget) (r : Row) : Bool :=
  match r.sellingPrice with
  | none => false
  | some p =>
    match b with
    | .budget => decide (p ≤ 2000)
    | .midRange => decide (2000 < p) && decide (p ≤ 5000)
    | .premium => decide (5000 < p) && decide (p ≤ 10000)
    | .luxury => decide (10000 < p)

/-- The narrowing phase of the recommendation engine (src/FTA.py
lines 505-526): budget bracket, then brand and device type unless
"No Preference" (`none`), then the rating and battery floors. -/
def narrow (b : Budget) (brand devType : Option String) (minR minB : ℚ)
    (rows : List Row) : List Row :=
  let d1 := rows.filter (budgetPass b)
  let d2 :=
    match brand with
    | none => d1
    | some br => d1.filter (fun r => r.brand == br)
  let d3 :=
    match devType with
    | none => d2
    | some dv => d2.filter (fun r => r.deviceType == dv)
  d3.filter (fun r => ratingOk minR r && batteryOk minB r)

/-- The sort key each priority choice selects (src/FTA.py
lines 530-537). -/
def priorityKey : Priority → Row → Option ℚ
  | .bestValue => Row.valueScore
  | .highestQuality => Row.rating
  | .mostPopular => fun r => some r.reviews
  | .longestBattery => Row.battery

/-- The up-to-5 recommended rows: narrow, then `nlargest(5, key)`. -/
def recommendations (b : Budget) (pr : Priority) (brand devType : Option String)
    (minR minB : ℚ) (rows : List Row) : List Row :=
  nlargestBy 5 (priorityKey pr) (narrow b brand devType minR minB rows)

/-- What the recommendation branch renders: the ranked list, or the
explicit "No products match your criteria" warning. -/
inductive RecOutput where
  | results (rows : List Row)
  | noMatch
deriving DecidableEq, Repr

/-- The output branch of the recommendation engine (src/FTA.py
lines 528-562): recommendations are rendered iff the narrowed set is
non-empty, otherwise `st.warning` is shown. -/
def recommendOutput (b : Budget) (pr : Priority) (brand devType : Option String)
    (minR minB : ℚ) (rows : List Row) : RecOutput :=
  let rd := narrow b brand devType minR minB rows
  if 0 < rd.length then .results (nlargestBy 5 (priorityKey pr) rd)
  else .noMatch

theorem memFilter_eq (sel : List String) (get : Row → String) (rows : List Row) :
    memFilter sel get rows
      = rows.filter (fun r => sel.isEmpty || sel.contains (get r)) := by
  unfold memFilter
  cases h : sel.isEmpty <;> simp [h]

theorem applyFilters_eq_filter (fs : Filters) (rows : List Row) :
    applyFilters fs rows = rows.filter (passAll fs) := by
  simp only [applyFilters, passAll, memFilter_eq, List.filter_filter]
  congr 1
  funext r
  simp only [passAll, Bool.and_assoc, Bool.and_comm, Bool.and_left_comm]

theorem mem_applyFilters {fs : Filters} {rows : List Row} {r : Row}
    (h : r ∈ applyFilters fs rows) : r ∈ rows ∧ passAll fs r = true := by
  rw [applyFilters_eq_filter] at h
  exact ⟨(List.mem_filter.mp h).1, (List.mem_filter.mp h).2⟩

theorem mem_narrow {b : Budget} {brand devType : Option String} {minR minB : ℚ}
    {rows : List Row} {r : Row}
    (h : r ∈ narrow b brand devType minR minB rows) :
    r ∈ rows ∧ budgetPass b r = true ∧ ratingOk minR r = true ∧
      batteryOk minB r = true := by
  cases brand <;> cases devType <;>
    · simp only [narrow, List.mem_filter, Bool.and_eq_true] at h
      tauto

/-- A sample product row used by the witness theorems. -/
def sampleRow : Row :=
  { brand := "Acme"
    model := "Pulse"
    deviceType := "FitnessBand"
    color := "Black"
    display := "AMOLED"
    strapMaterial := "Silicone"
    sellingPrice := some 3000
    originalPrice := some 4000
    reviews := 100
    rating := some 4
    battery := some 7
    discount := some 25
    valueScore := some 1
    priceCategory := some .midRange }

/-- A sample raw record used by the witness theorems. -/
def sampleRaw : RawRow :=
  { brand := "Acme"
    model := "Pulse"
    deviceType := "FitnessBand"
    color := "Black"
    display := "AMOLED"
    strapMaterial := "Silicone"
    sellingPrice := .num 400
    originalPrice := .num 500
    reviews := .num 100
    rating := some 4
    battery := some 7 }

/-- Sidebar controls with every multi-select empty and the sliders at
their widest, used by the witness theorems. -/
def sampleFilters : Filters :=
  { brands := []
    devices := []
    colors := []
    priceLo := 0
    priceHi := 100000
    minRating := 1 }

/-- A raw record whose only interesting column is the selling price. -/
def rawWithPrice (q : ℚ) : RawRow :=
  { brand := "B"
    model := "M"
    deviceType := "D"
    color := "C"
    display := "L"
    strapMaterial := "S"
    sellingPrice := .num q
    originalPrice := .num q
    reviews := .num 0
    rating := some 4
    battery := some 7 }

/-- C2: for every table and every fixed choice of the other filter
controls, running the pipeline with an empty brand multi-select
returns exactly the rows the pipeline without the brand stage
returns; likewise for the device-type and color multi-selects.  An
empty multi-choice selection is a pass-through, never "match
nothing". -/
theorem empty_multiselect_passthrough (fs : Filters) (rows : List Row) :
    applyFilters { fs with brands := [] } rows = applyFiltersNoBrand fs rows ∧
    applyFilters { fs with devices := [] } rows = applyFiltersNoDevice fs rows ∧
    applyFilters { fs with colors := [] } rows = applyFiltersNoColor fs rows := by
  refine ⟨?_, ?_, ?_⟩ <;>
    simp [applyFilters, applyFiltersNoBrand, applyFiltersNoDevice,
      applyFiltersNoColor, memFilter]

/-- C6: the filter pipeline is idempotent — applying it to its own
output, with the same control values, returns the output unchanged. -/
theorem filter_pipeline_idempotent (fs : Filters) (rows : List Row) :
    applyFilters fs (applyFilters fs rows) = applyFilters fs rows := by
  simp only [applyFilters_eq_filter, List.filter_filter]
  exact List.filter_congr (fun a _ => Bool.and_self (passAll fs a))

/-- C9: every row the filter pipeline returns has a present rating of
at least the selected minimum; a row with a missing rating is excluded
for every slider value, because the comparison never admits a missing
value. -/
theorem filtered_rating_present (fs : Filters) (rows : List Row) (r : Row)
    (h : r ∈ applyFilters fs rows) :
    ∃ q : ℚ, r.rating = some q ∧ fs.minRating ≤ q := by
  have hp := (mem_applyFilters h).2
  simp only [passAll, Bool.and_eq_true] at hp
  have hr := hp.2.2.2.2
  unfold ratingOk at hr
  cases hq : r.rating with
  | none => rw [hq] at hr; simp at hr
  | some q =>
    rw [hq] at hr
    simp only [decide_eq_true_eq] at hr
    exact ⟨q, rfl, hr⟩

theorem filtered_rating_present_witness :
    ∃ q : ℚ, sampleRow.rating = some q ∧ sampleFilters.minRating ≤ q :=
  filtered_rating_present sampleFilters [sampleRow] sampleRow (by decide)

/-- C3: the price-category derivation assigns, over the fixed bins
0-2000, 2000-5000, 5000-10000, 10000+, the labels Budget, Mid-Range,
Premium, Luxury respectively; in particular a 3-row table loaded with
selling prices 1000, 3000, 12000 receives the categories Budget,
Mid-Range, Luxury. -/
theorem price_category_bins :
    (∀ p : ℚ, 0 < p → p ≤ 2000 →
      priceCategoryOf (some p) = some PriceCategory.budget) ∧
    (∀ p : ℚ, 2000 < p → p ≤ 5000 →
      priceCategoryOf (some p) = some PriceCategory.midRange) ∧
    (∀ p : ℚ, 5000 < p → p ≤ 10000 →
      priceCategoryOf (some p) = some PriceCategory.premium) ∧
    (∀ p : ℚ, 10000 < p →
      priceCategoryOf (some p) = some PriceCategory.luxury) ∧
    ([1000, 3000, 12000].map (fun q => (loadRow (rawWithPrice q)).priceCategory)
      = [some PriceCategory.budget, some PriceCategory.midRange,
         some PriceCategory.luxury]) := by
  refine ⟨?_, ?_, ?_, ?_, by decide⟩
  · intro p h1 h2
    simp only [priceCategoryOf]
    rw [if_pos ⟨h1, h2⟩]
  · intro p h1 h2
    have hn1 : ¬(0 < p ∧ p ≤ 2000) := fun hc => absurd hc.2 (not_le.mpr h1)
    simp only [priceCategoryOf]
    rw [if_neg hn1, if_pos ⟨h1, h2⟩]
  · intro p h1 h2
    have hn1 : ¬(0 < p ∧ p ≤ 2000) := fun hc => absurd hc.2 (by linarith)
    have hn2 : ¬(2000 < p ∧ p ≤ 5000) := fun hc => absurd hc.2 (not_le.mpr h1)
    simp only [priceCategoryOf]
    rw [if_neg hn1, if_neg hn2, if_pos ⟨h1, h2⟩]
  · intro p h1
    have hn1 : ¬(0 < p ∧ p ≤ 2000) := fun hc => absurd hc.2 (by linarith)
    have hn2 : ¬(2000 < p ∧ p ≤ 5000) := fun hc => absurd hc.2 (by linarith)
    have hn3 : ¬(5000 < p ∧ p ≤ 10000) := fun hc => absurd hc.2 (not_le.mpr h1)
    simp only [priceCategoryOf]
    rw [if_neg hn1, if_neg hn2, if_neg hn3, if_pos h1]

theorem price_category_bins_witness :
    priceCategoryOf (some 1500) = some PriceCategory.budget ∧
    priceCategoryOf (some 7000) = some PriceCategory.premium :=
  ⟨price_category_bins.1 1500 (by norm_num) (by norm_num),
   price_category_bins.2.2.1 7000 (by norm_num) (by norm_num)⟩

/-- C10: the price bins are left-open and right-closed — a selling
price of exactly 2000 is Budget and exactly 5000 is Mid-Range, while
a selling price of exactly 0, or a missing one, gets no category. -/
theorem price_bins_left_open_right_closed :
    priceCategoryOf (some 2000) = some PriceCategory.budget ∧
    priceCategoryOf (some 5000) = some PriceCategory.midRange ∧
    priceCategoryOf (some 0) = none ∧
    priceCategoryOf none = none := by
  decide

/-- C4: for every raw row whose cleaned original and selling prices
are both present, the derived `Discount (%)` column equals
`100 * (original - selling) / original` exactly. -/
theorem discount_recomputed (raw : RawRow) (o s : ℚ)
    (ho : (loadRow raw).originalPrice = some o)
    (hs : (loadRow raw).sellingPrice = some s) :
    (loadRow raw).discount = some (100 * (o - s) / o) := by
  simp only [loadRow] at ho hs ⊢
  rw [ho, hs]

theorem discount_recomputed_witness :
    (loadRow sampleRaw).discount = some (100 * (500 - 400) / 500) :=
  discount_recomputed sampleRaw 500 400 rfl rfl

/-- C5: for every table and every numeric sort key, the top-N
selection (`nlargest`, used with N = 10 by the ranking tabs and N = 5
by the recommendation engine) returns rows arranged in descending
order of the key, and its length is `min N (number of rows)`. -/
theorem topN_sorted_and_length (n : ℕ) (key : Row → Option ℚ) (rows : List Row) :
    (nlargestBy n key rows).Sorted (descRel key) ∧
    (nlargestBy n key rows).length = min n rows.length :=
  ⟨nlargestBy_sorted n key rows, nlargestBy_length n key rows⟩

/-- C1: for every table and every priority choice, running the
recommendation engine with budget bracket Mid-Range (2K-5K), brand
and device type "No Preference", minimum rating 4 and minimum
battery 5 returns only rows with 2000 < selling price ≤ 5000,
rating ≥ 4 and battery life ≥ 5, arranged in descending order of the
chosen priority key, and at most 5 of them. -/
theorem midrange_recommendation_scenario (rows : List Row) (pr : Priority) :
    (∀ r ∈ recommendations Budget.midRange pr none none 4 5 rows,
      (∃ p, r.sellingPrice = some p ∧ 2000 < p ∧ p ≤ 5000) ∧
      (∃ q, r.rating = some q ∧ 4 ≤ q) ∧
      (∃ bl, r.battery = some bl ∧ 5 ≤ bl)) ∧
    (recommendations Budget.midRange pr none none 4 5 rows).Sorted
      (descRel (priorityKey pr)) ∧
    (recommendations Budget.midRange pr none none 4 5 rows).length ≤ 5 := by
  refine ⟨?_, nlargestBy_sorted 5 (priorityKey pr) _, ?_⟩
  · intro r hr
    have h1 : r ∈ narrow Budget.midRange none none 4 5 rows := mem_nlargestBy hr
    obtain ⟨-, hb, hrt, hbt⟩ := mem_narrow h1
    refine ⟨?_, ?_, ?_⟩
    · unfold budgetPass at hb
      cases hp : r.sellingPrice with
      | none => rw [hp] at hb; simp at hb
      | some p =>
        rw [hp] at hb
        simp only [Bool.and_eq_true, decide_eq_true_eq] at hb
        exact ⟨p, rfl, hb.1, hb.2⟩
    · unfold ratingOk at hrt
      cases hq : r.rating with
      | none => rw [hq] at hrt; simp at hrt
      | some q =>
        rw [hq] at hrt
        simp only [decide_eq_true_eq] at hrt
        exact ⟨q, rfl, hrt⟩
    · unfold batteryOk at hbt
      cases hx : r.battery with
      | none => rw [hx] at hbt; simp at hbt
      | some bl =>
        rw [hx] at hbt
        simp only [decide_eq_true_eq] at hbt
        exact ⟨bl, rfl, hbt⟩
  · have := nlargestBy_length 5 (priorityKey pr)
      (narrow Budget.midRange none none 4 5 rows)
    calc (recommendations Budget.midRange pr none none 4 5 rows).length
        = min 5 (narrow Budget.midRange none none 4 5 rows).length := this
      _ ≤ 5 := Nat.min_le_left _ _

theorem midrange_recommendation_scenario_witness :
    (∃ p, sampleRow.sellingPrice = some p ∧ 2000 < p ∧ p ≤ 5000) ∧
    (∃ q, sampleRow.rating = some q ∧ 4 ≤ q) ∧
    (∃ bl, sampleRow.battery = some bl ∧ 5 ≤ bl) :=
  (midrange_recommendation_scenario [sampleRow] Priority.mostPopular).1
    sampleRow (by decide)

/-- C7: the recommendation engine renders recommendations only when
the narrowed set is non-empty; when it is empty it produces the
explicit "no products match" warning instead of an empty render. -/
theorem recommendation_no_match_branch (b : Budget) (pr : Priority)
    (brand devType : Option String) (minR minB : ℚ) (rows : List Row) :
    (narrow b brand devType minR minB rows = [] →
      recommendOutput b pr brand devType minR minB rows = RecOutput.noMatch) ∧
    (∀ l, recommendOutput b pr brand devType minR minB rows
        = RecOutput.results l →
      narrow b brand devType minR minB rows ≠ [] ∧
      l = recommendations b pr brand devType minR minB rows) := by
  constructor
  · intro h
    simp [recommendOutput, h]
  · intro l hl
    unfold recommendOutput at hl
    by_cases h : 0 < (narrow b brand devType minR minB rows).length
    · rw [if_pos h] at hl
      refine ⟨?_, ?_⟩
      · intro he
        rw [he] at h
        simp at h
      · injection hl with h2
        exact h2.symm
    · rw [if_neg h] at hl
      cases hl

theorem recommendation_no_match_branch_witness :
    recommendOutput Budget.midRange Priority.bestValue none none 4 5 []
      = RecOutput.noMatch :=
  (recommendation_no_match_branch Budget.midRange Priority.bestValue
    none none 4 5 []).1 rfl

/-- C8 (amended): after the cleaner runs, every selling-price and
original-price cell is either a number or the missing ("no value")
marker, never a non-numeric string — garbled values are coerced, not
raised on.  (The stronger claim that the number is always
non-negative fails: the cleaner performs no sign check, see the
counterexample.) -/
theorem cleaned_price_numeric_or_missing (c : Cell) :
    (∃ q : ℚ, cleanCell c = Cell.num q) ∨ cleanCell c = Cell.missing := by
  cases c with
  | num q => exact Or.inl ⟨q, rfl⟩
  | missing => exact Or.inr rfl
  | str s =>
    simp only [cleanCell]
    cases h : parseRat (stripCommas s) with
    | none => exact Or.inr rfl
    | some q => exact Or.inl ⟨q, rfl⟩

/-- C8 counterexample: the raw string cell "-5" is coerced to the
number -5, which is negative — so a cleaned price cell is not always
"a non-negative number or the no-value marker". -/
theorem cleaned_price_negative_counterexample :
    cleanCell (Cell.str "-5") = Cell.num (-5) ∧ ((-5 : ℚ) < 0) := by
  refine ⟨?_, by norm_num⟩
  decide

end FTA
